import Mathlib

/-!
Shallow embedding of the git-meta diff/merge command layer:

* `src/node/lib/util/diff_util.js` — `convertDeltaFlag`, `readDiff`,
  `getRepoStatus`, `getOptions`, `subDiffCmdBuilder`, `getDiffWithOptions`,
  `printDiff`;
* `src/node/lib/cmd/merge_bare.js` — `executeableSubcommand`.

JavaScript objects used as string-keyed maps are embedded as association
lists in insertion order (a later assignment to the same key appends; the
JS read semantics "last assignment wins" is `objLookup` below).  Node's
`path.relative` on POSIX paths is embedded segment-wise (`relSegs`); both
arguments are resolved against the same working directory, so the shared
prefix cancels and only the two paths' own segments matter.  Promises and
generators carry no observable state here, so `co.wrap` bodies become
plain functions; external collaborators (NodeGit, the shell, the hook
runner) are either parameters (`DiffEnv`, `MergeBareEnv`) or recorded in a
trace (`SubDiffTrace`, `CmdTrace`).
-/

namespace GitMeta

/-! ## Path utilities (Node `path.relative`, string helpers) -/

/-- JS `String.prototype.startsWith`, char by char. -/
def charsStartWith : List Char → List Char → Bool
  | _, [] => true
  | [], _ :: _ => false
  | c :: cs, q :: qs => c == q && charsStartWith cs qs

/-- `s.startsWith(p)` from JS. -/
def strStartsWith (s p : String) : Bool :=
  charsStartWith s.data p.data

/-- Split a character list at each slash, keeping the trailing partial
segment. -/
def splitPathAux : List Char → List Char → List (List Char)
  | [], cur => [cur]
  | c :: cs, cur =>
      if c = '/' then cur :: splitPathAux cs []
      else splitPathAux cs (cur ++ [c])

/-- Path segments of a POSIX path string, empty segments dropped (leading,
trailing and duplicate slashes are irrelevant, as after `path.resolve`). -/
def splitPath (s : String) : List String :=
  ((splitPathAux s.data []).map (fun l => String.mk l)).filter (fun x => x ≠ (""))

/-- Segments of `path.relative(from, to)` once the common working-directory
prefix has cancelled: drop the longest common prefix, then one `..` per
remaining from-segment followed by the remaining to-segments. -/
def relSegs : List String → List String → List String
  | [], ts => ts
  | fs, [] => fs.map (fun _ => (".."))
  | f :: fs, t :: ts =>
      if f = t then relSegs fs ts
      else ((f :: fs).map (fun _ => (".."))) ++ t :: ts

/-- Join segments with slashes (inverse of `splitPath` on well-formed
segment lists). -/
def joinSegs : List String → String
  | [] => ("")
  | [x] => x
  | x :: y :: ys => x ++ ("/") ++ joinSegs (y :: ys)

/-- Node `path.relative(a, b)` for two paths resolved against the same
working directory. -/
def pathRelative (a b : String) : String :=
  joinSegs (relSegs (splitPath a) (splitPath b))

/-! ## Diff data model (NodeGit contract, §6 of the spec) -/

/-- `NodeGit.Diff.DELTA` statuses that reach this code. -/
inductive DELTA where
  | ADDED
  | DELETED
  | MODIFIED
  | RENAMED
  | TYPECHANGE
  | UNTRACKED
  | CONFLICTED
deriving DecidableEq, Repr

/-- `RepoStatus.FILESTATUS` tags. -/
inductive FILESTATUS where
  | ADDED
  | MODIFIED
  | REMOVED
  | RENAMED
  | TYPECHANGED
deriving DecidableEq, Repr

/-- `NodeGit.TreeEntry.FILEMODE` values relevant here: `COMMIT` marks a
submodule pointer entry. -/
inductive FILEMODE where
  | BLOB
  | EXECUTABLE
  | LINK
  | TREE
  | COMMIT
deriving DecidableEq, Repr

/-- One side of a delta: `delta.oldFile()` / `delta.newFile()`. -/
structure DeltaFile where
  path : String
  mode : FILEMODE
deriving DecidableEq, Repr

/-- One per-path delta of a NodeGit diff. -/
structure DiffDelta where
  status : DELTA
  oldFile : DeltaFile
  newFile : DeltaFile
deriving DecidableEq, Repr

/-- `SubmoduleConfigUtil.modulesFileName`. -/
def modulesFileName : String := (".gitmodules")

/-- `convertDeltaFlag` from `diff_util.js`: the `assert(false)` branch for
flags outside the convertible set (here: `CONFLICTED`, which `readDiff`
filters out first) is `none`. -/
def convertDeltaFlag : DELTA → Option FILESTATUS
  | DELTA.MODIFIED => some FILESTATUS.MODIFIED
  | DELTA.ADDED => some FILESTATUS.ADDED
  | DELTA.DELETED => some FILESTATUS.REMOVED
  | DELTA.RENAMED => some FILESTATUS.RENAMED
  | DELTA.TYPECHANGE => some FILESTATUS.TYPECHANGED
  | DELTA.UNTRACKED => some FILESTATUS.ADDED
  | DELTA.CONFLICTED => none

/-- The file a delta is keyed by in `readDiff`: `oldFile` for a removal,
`newFile` otherwise. -/
def deltaKeyFile (d : DiffDelta) : DeltaFile :=
  if convertDeltaFlag d.status = some FILESTATUS.REMOVED then d.oldFile
  else d.newFile

/-- `readDiff` from `diff_util.js`, on the delta list of a diff.  The JS
loop assigns `result[path] = fileStatus` into an object; here each
assignment becomes an emitted entry, in loop order (`objLookup` reads the
object back). -/
def readDiff (deltas : List DiffDelta) : List (String × FILESTATUS) :=
  deltas.filterMap (fun d =>
    if d.status = DELTA.CONFLICTED then none
    else
      match convertDeltaFlag d.status with
      | none => none
      | some fileStatus =>
        let file := if fileStatus = FILESTATUS.REMOVED then d.oldFile
                    else d.newFile
        if modulesFileName ≠ file.path ∧ FILEMODE.COMMIT ≠ file.mode then
          some (file.path, fileStatus)
        else none)

/-- JS object read: the last assignment to a key wins. -/
def objLookup (m : List (String × FILESTATUS)) (k : String) :
    Option FILESTATUS :=
  (m.reverse.find? (fun e => e.1 == k)).map (fun e => e.2)

/-- Key membership in the embedded JS object. -/
def hasKey (m : List (String × FILESTATUS)) (k : String) : Bool :=
  m.any (fun e => e.1 == k)

/-! ## `getRepoStatus` -/

/-- A git tree / index / workdir state: path to blob content. -/
abbrev GitTree := List (String × String)

/-- The diff-option flag bits set by `getRepoStatus`, as named booleans. -/
structure DiffFlags where
  includeUntracked : Bool
  excludeSubmodules : Bool
  recurseUntrackedDirs : Bool
deriving DecidableEq, Repr

/-- The options record `getRepoStatus` passes to the diff primitives. -/
structure StatusDiffOptions where
  ignoreSubmodules : Nat
  flags : DiffFlags
  pathspec : Option (List String)
deriving DecidableEq, Repr

/-- The options value built at the top of `getRepoStatus`. -/
def mkStatusOptions (paths : List String) (allUntracked : Bool) :
    StatusDiffOptions :=
  { ignoreSubmodules := 1
    flags :=
      { includeUntracked := true
        excludeSubmodules := true
        recurseUntrackedDirs := allUntracked }
    pathspec := if paths.length ≠ 0 then some paths else none }

/-- The NodeGit diff primitives `getRepoStatus` calls (external
collaborators, §6): each yields the delta list of the produced diff. -/
structure DiffEnv where
  treeToWorkdir : Option GitTree → StatusDiffOptions → List DiffDelta
  indexToWorkdir : StatusDiffOptions → List DiffDelta
  treeToIndex : Option GitTree → StatusDiffOptions → List DiffDelta

/-- The `{staged, workdir}` result of `getRepoStatus`. -/
structure RepoStatusMaps where
  staged : List (String × FILESTATUS)
  workdir : List (String × FILESTATUS)
deriving DecidableEq, Repr

/-- `getRepoStatus` from `diff_util.js`. -/
def getRepoStatus (env : DiffEnv) (tree : Option GitTree)
    (paths : List String) (ignoreIndex allUntracked : Bool) :
    RepoStatusMaps :=
  let options := mkStatusOptions paths allUntracked
  if ignoreIndex then
    { staged := []
      workdir := readDiff (env.treeToWorkdir tree options) }
  else
    { staged := readDiff (env.treeToIndex tree options)
      workdir := readDiff (env.indexToWorkdir options) }

/-! ## `getOptions` and `getDiffWithOptions` -/

/-- The record `getOptions` builds (`diffOpts`, a fresh default
`NodeGit.DiffOptions`, carries no observable state and is omitted). -/
structure Opts where
  treeish1 : Option String
  treeish2 : Option String
  t1 : Option GitTree
  t2 : Option GitTree
  argOpts : List String
  argPaths : List String
deriving DecidableEq, Repr

/-- The `argOpts` slice of `process.argv`: everything strictly between the
first `diff` token (or index 0 when absent) and the first `--` (or the end
when absent).  JS `argv.slice(i0 + 1, i1)`. -/
def derivedArgOpts (argv : List String) : List String :=
  let i0 := match argv.findIdx? (fun a => a == ("diff")) with
            | some i => i
            | none => 0
  let i1 := match argv.findIdx? (fun a => a == ("--")) with
            | some i => i
            | none => argv.length
  (argv.take i1).drop (i0 + 1)

/-- The `argPaths` slice of `process.argv`: everything after the first
`--`.  JS `argv.slice(i1 + 1, argv.length)`. -/
def derivedArgPaths (argv : List String) : List String :=
  let i1 := match argv.findIdx? (fun a => a == ("--")) with
            | some i => i
            | none => argv.length
  argv.drop (i1 + 1)

/-- `getOptions` from `diff_util.js`.  `argv` is the ambient
`process.argv` the function re-inspects; `commits` is `args.commits` from
the parser; `revparse` is `TreeUtil.revparseTreeish(repo, ·)` (with a
`null` treeish resolving to `null`, hence `Option.bind`). -/
def getOptions (argv : List String) (commits : List String)
    (revparse : String → Option GitTree) : Opts :=
  let argOpts := derivedArgOpts argv
  let argPaths := derivedArgPaths argv
  let pair : Option String × Option String :=
    match commits with
    | [] => (none, none)
    | c1 :: rest =>
      if argPaths.contains c1 then (none, none)
      else
        match rest with
        | [] => (some c1, none)
        | c2 :: _ =>
          if argPaths.contains c2 then (some c1, none)
          else (some c1, some c2)
  let treeish1 := pair.1
  let treeish2 := pair.2
  { treeish1 := treeish1
    treeish2 := treeish2
    t1 := treeish1.bind revparse
    t2 := treeish2.bind revparse
    argOpts := argOpts.filter
      (fun w => decide (some w ≠ treeish1) && decide (some w ≠ treeish2))
    argPaths := argPaths }

/-- Which diff primitive `getDiffWithOptions` delegates to, with its tree
arguments. -/
inductive DiffCall where
  | treeToTree (t1 t2 : GitTree)
  | treeToWorkdirWithIndex (t : GitTree)
  | indexToWorkdir
deriving DecidableEq, Repr

/-- `getDiffWithOptions` from `diff_util.js`: `if (t1 && t2) … else if
(t1) … else …`. -/
def getDiffWithOptions (opts : Opts) : DiffCall :=
  match opts.t1, opts.t2 with
  | some a, some b => DiffCall.treeToTree a b
  | some a, none => DiffCall.treeToWorkdirWithIndex a
  | none, _ => DiffCall.indexToWorkdir

/-! ## `subDiffCmdBuilder` and `printDiff` -/

/-- JS `Array.prototype.join(" ")`. -/
def joinSp : List String → String
  | [] => ("")
  | [x] => x
  | x :: y :: ys => x ++ (" ") ++ joinSp (y :: ys)

/-- The per-path translation inside `subDiffCmdBuilder`: `path.relative`
to the submodule, dropped (`null`) when the result starts with `..`,
mapped to `.` when empty. -/
def subRelativePath (subPath p : String) : Option String :=
  let relative := pathRelative subPath p
  if strStartsWith relative ("..") then none
  else if relative = ("") then some (".")
  else some relative

/-- `subDiffCmdBuilder` from `diff_util.js`.  The two repositories appear
only through their `workdir()` strings (`metaDir`, `subDir`); the JS
`map` + `filter(p => p !== null)` pair is the fused `filterMap`; the dead
`treeishStr` variable stays `""` and is spliced in as in the template
literal. -/
def subDiffCmdBuilder (metaDir subDir : String) (opts : Opts) : String :=
  let subPath := pathRelative metaDir subDir
  let argOpts := opts.argOpts
  let argPaths := opts.argPaths
  let treeishStr := ("")
  if argPaths.length > 0 then
    let relativePaths := argPaths.filterMap (subRelativePath subPath)
    if relativePaths.length = 0 then ("")
    else
      ("git -C ") ++ subPath ++ (" diff ") ++ joinSp argOpts ++ (" ") ++
        treeishStr ++ (" -- ") ++ joinSp relativePaths
  else
    ("git -C ") ++ subPath ++ (" diff ") ++ joinSp argOpts ++ (" ") ++
      treeishStr

/-- What `printDiff` emits: its `console.log` lines and the command
strings it hands to `spawn(…, {shell: true})`. -/
structure SubDiffTrace where
  logs : List String
  spawned : List String
deriving DecidableEq, Repr

/-- `printDiff` from `diff_util.js`: builds the command, logs the debug
line, and spawns the command string unconditionally. -/
def printDiff (metaDir subDir : String) (opts : Opts) : SubDiffTrace :=
  let execStr := subDiffCmdBuilder metaDir subDir opts
  { logs := [("qqqq execStr = \x27") ++ execStr ++ ("\x27")]
    spawned := [execStr] }

/-! ## `merge-bare` (`src/node/lib/cmd/merge_bare.js`) -/

/-- `MergeCommon.MODE`. -/
inductive MergeMode where
  | NORMAL
  | FORCE_COMMIT
deriving DecidableEq, Repr

/-- The result of `MergeUtil.merge` (§3 `MergeResult`): a commit id or an
error message, either possibly null as far as this caller observes. -/
structure MergeResult where
  metaCommit : Option String
  errorMessage : Option String
deriving DecidableEq, Repr

/-- `colors.red`. -/
def colorsRed (s : String) : String :=
  ("\x1b[31m") ++ s ++ ("\x1b[39m")

/-- The external collaborators `merge-bare` calls:
`GitUtil.resolveCommitish` composed with `repo.getCommit` (a commitish
name resolves directly to a commit id, or to nothing), and
`MergeUtil.merge` on the two commits, the mode and the message (the
`FORCE_BARE` open option and the no-op editor are fixed at the call
site). -/
structure MergeBareEnv where
  resolveCommitish : String → Option String
  merge : String → String → MergeMode → String → MergeResult

/-- The parsed arguments of `merge-bare`. -/
structure MergeBareArgs where
  message : String
  ourCommit : Option String
  theirCommit : Option String
  no_ff : Bool
deriving DecidableEq, Repr

/-- Observable outcome of one `merge-bare` run: the thrown `UserError`
message if any, the `console.log` output, and how often `MergeUtil.merge`
and the `post-merge` hook ran. -/
structure CmdTrace where
  userError : Option String
  printed : List String
  mergeCalls : Nat
  hookCalls : Nat
deriving DecidableEq, Repr

/-- The tail of `executeableSubcommand` once `MergeUtil.merge` has
returned `result`: throw `result.errorMessage` as a `UserError` if
non-null, otherwise log `result.metaCommit` if non-null and then run the
`post-merge` hook (`Hook.execHook(repo, "post-merge", ["0"])`). -/
def mergeOutcome (result : MergeResult) : CmdTrace :=
  match result.errorMessage with
  | some e => ⟨some e, [], 1, 0⟩
  | none =>
    let printed := match result.metaCommit with
                   | some c => [c]
                   | none => []
    ⟨none, printed, 1, 1⟩

/-- `executeableSubcommand` from `merge_bare.js`: a thrown `UserError`
aborts the run at that point. -/
def executeableSubcommand (env : MergeBareEnv) (args : MergeBareArgs) :
    CmdTrace :=
  let mode := if args.no_ff then MergeMode.FORCE_COMMIT
              else MergeMode.NORMAL
  match args.ourCommit, args.theirCommit with
  | none, _ => ⟨some ("Two commits must be given."), [], 0, 0⟩
  | some _, none => ⟨some ("Two commits must be given."), [], 0, 0⟩
  | some ourCommitName, some theirCommitName =>
    match env.resolveCommitish ourCommitName with
    | none =>
      ⟨some (("Could not resolve ") ++ colorsRed ourCommitName ++
             (" to a commit.")), [], 0, 0⟩
    | some ourCommit =>
      match env.resolveCommitish theirCommitName with
      | none =>
        ⟨some (("Could not resolve ") ++ colorsRed theirCommitName ++
               (" to a commit.")), [], 0, 0⟩
      | some theirCommit =>
        mergeOutcome (env.merge ourCommit theirCommit mode args.message)

/-! ## A concrete diff primitive (for claims about the external diff
contract) -/

/-- First entry for a path, as a map read. -/
def lookupPath (m : GitTree) (p : String) : Option String :=
  (m.find? (fun e => e.1 == p)).map (fun e => e.2)

/-- A delta on path `p` between two blob entries. -/
def mkDelta (st : DELTA) (p : String) : DiffDelta :=
  ⟨st, ⟨p, FILEMODE.BLOB⟩, ⟨p, FILEMODE.BLOB⟩⟩

/-- Modelled from the spec: the external NodeGit diff primitive contract
(§6 — `treeToWorkdir`, `indexToWorkdir`, `treeToIndex` are collaborator
code outside this repository).  Comparing two path-to-content states
yields one delta per differing path: deleted, modified, or present only
on the new side (surfaced as `UNTRACKED`, as a workdir-side addition
is). -/
def diffStates (old new : GitTree) : List DiffDelta :=
  (old.filterMap (fun e =>
    match lookupPath new e.1 with
    | none => some (mkDelta DELTA.DELETED e.1)
    | some c => if c = e.2 then none else some (mkDelta DELTA.MODIFIED e.1)))
  ++ (new.filterMap (fun e =>
    match lookupPath old e.1 with
    | none => some (mkDelta DELTA.UNTRACKED e.1)
    | some _ => none))

/-- Modelled from the spec: the pathspec option restricts a diff to paths
under one of the given prefixes (§4.2 — "restricts comparison to those
path prefixes"). -/
def applyPathspec (opts : StatusDiffOptions) (ds : List DiffDelta) :
    List DiffDelta :=
  match opts.pathspec with
  | none => ds
  | some ps => ds.filter (fun d => ps.any (fun q =>
      strStartsWith (deltaKeyFile d).path q))

/-- The diff primitives of a repository whose index and working directory
hold the given states. -/
def stateDiffEnv (index workdir : GitTree) : DiffEnv :=
  { treeToWorkdir := fun t opts =>
      applyPathspec opts (diffStates (t.getD []) workdir)
    indexToWorkdir := fun opts =>
      applyPathspec opts (diffStates index workdir)
    treeToIndex := fun t opts =>
      applyPathspec opts (diffStates (t.getD []) index) }

/-! ## Helper lemmas -/

theorem strData_append (a b : String) : (a ++ b).data = a.data ++ b.data := by
  cases a
  cases b
  rfl

theorem strAppendAssoc (a b c : String) : a ++ b ++ c = a ++ (b ++ c) := by
  cases a
  cases b
  cases c
  show String.mk _ = String.mk _
  rw [List.append_assoc]

theorem charsStartWith_append_self (l m : List Char) :
    charsStartWith (l ++ m) l = true := by
  induction l with
  | nil => cases m <;> rfl
  | cons c cs ih => simp [charsStartWith, ih]

theorem hasKey_eq_true_iff {m : List (String × FILESTATUS)} {p : String} :
    hasKey m p = true ↔ ∃ v, (p, v) ∈ m := by
  simp only [hasKey, List.any_eq_true, beq_iff_eq]
  constructor
  · rintro ⟨⟨a, b⟩, hm, rfl⟩
    exact ⟨b, hm⟩
  · rintro ⟨v, hm⟩
    exact ⟨(p, v), hm, rfl⟩

theorem readDiff_key_src {ds : List DiffDelta} {p : String}
    (h : hasKey (readDiff ds) p = true) :
    p ≠ modulesFileName ∧
      ∃ d ∈ ds, d.status ≠ DELTA.CONFLICTED ∧ (deltaKeyFile d).path = p ∧
        (deltaKeyFile d).mode ≠ FILEMODE.COMMIT := by
  obtain ⟨v, hv⟩ := hasKey_eq_true_iff.mp h
  rw [readDiff, List.mem_filterMap] at hv
  obtain ⟨d, hd, hfd⟩ := hv
  cases hs : d.status <;>
    simp only [hs, convertDeltaFlag, reduceCtorEq, reduceIte] at hfd <;>
    · split at hfd
      · rename_i hcond
        rw [Option.some.injEq, Prod.mk.injEq] at hfd
        obtain ⟨hp, -⟩ := hfd
        subst hp
        refine ⟨fun hh => hcond.1 hh.symm, d, hd, by simp [hs], ?_, ?_⟩
        · simp [deltaKeyFile, hs, convertDeltaFlag]
        · simp only [deltaKeyFile, hs, convertDeltaFlag, reduceCtorEq,
            reduceIte]
          exact fun hh => hcond.2 hh.symm
      · exact absurd hfd (by simp)

theorem splitPathAux_append (xs ys : List Char) :
    ∀ cur, splitPathAux (xs ++ '/' :: ys) cur =
      splitPathAux xs cur ++ splitPathAux ys [] := by
  induction xs with
  | nil => intro cur; rfl
  | cons c cs ih =>
    intro cur
    by_cases hc : c = '/'
    · subst hc
      simp [splitPathAux, ih]
    · simp [splitPathAux, hc, ih]

theorem splitPath_append_slash (a b : String) :
    splitPath (a ++ ("/") ++ b) = splitPath a ++ splitPath b := by
  have hd : (a ++ ("/") ++ b).data = a.data ++ '/' :: b.data := by
    rw [strData_append, strData_append]
    simp
  rw [splitPath, hd, splitPathAux_append, List.map_append, List.filter_append]
  rfl

theorem relSegs_append (xs ys : List String) : relSegs xs (xs ++ ys) = ys := by
  induction xs with
  | nil => simp [relSegs]
  | cons x rest ih => simpa [relSegs] using ih

theorem relSegs_not_under (fs ts : List String)
    (h : fs.isPrefixOf ts = false) :
    ∃ rest, relSegs fs ts = (("..")) :: rest := by
  induction fs generalizing ts with
  | nil => simp [List.isPrefixOf] at h
  | cons f fs ih =>
    cases ts with
    | nil => exact ⟨fs.map (fun _ => ("..")), rfl⟩
    | cons t ts =>
      by_cases hft : f = t
      · subst hft
        simp only [List.isPrefixOf, beq_self_eq_true, Bool.true_and] at h
        obtain ⟨rest, hrest⟩ := ih ts h
        exact ⟨rest, by simpa [relSegs] using hrest⟩
      · exact ⟨fs.map (fun _ => ("..")) ++ t :: ts, by simp [relSegs, hft]⟩

theorem strStartsWith_joinSegs_head (x : String) (rest : List String) :
    strStartsWith (joinSegs (x :: rest)) x = true := by
  cases rest with
  | nil =>
    rw [strStartsWith]
    have := charsStartWith_append_self x.data []
    simpa using this
  | cons y ys =>
    rw [strStartsWith, joinSegs, strData_append, strData_append,
      List.append_assoc]
    exact charsStartWith_append_self x.data _

theorem lookupPath_self {s : GitTree} (h : (s.map Prod.fst).Nodup)
    {p c : String} (hm : (p, c) ∈ s) : lookupPath s p = some c := by
  induction s with
  | nil => cases hm
  | cons e rest ih =>
    rw [List.map_cons, List.nodup_cons] at h
    rcases List.mem_cons.mp hm with he | hrest
    · obtain rfl := he.symm
      simp [lookupPath, List.find?]
    · have hne : ¬(e.1 == p) = true := by
        intro hb
        exact h.1 (beq_iff_eq.mp hb ▸ List.mem_map_of_mem Prod.fst hrest)
      rw [lookupPath, List.find?]
      rw [Bool.not_eq_true] at hne
      rw [hne]
      exact ih h.2 hrest

theorem diffStates_self {s : GitTree} (h : (s.map Prod.fst).Nodup) :
    diffStates s s = [] := by
  rw [diffStates, List.append_eq_nil]
  constructor
  · rw [List.filterMap_eq_nil_iff]
    intro e he
    rw [lookupPath_self h (show (e.1, e.2) ∈ s from he)]
    simp
  · rw [List.filterMap_eq_nil_iff]
    intro e he
    rw [lookupPath_self h (show (e.1, e.2) ∈ s from he)]

theorem mergeOutcome_hook (r : MergeResult) :
    ((mergeOutcome r).userError = none → (mergeOutcome r).hookCalls = 1)
    ∧ ((mergeOutcome r).userError ≠ none → (mergeOutcome r).hookCalls = 0) := by
  cases hm : r.errorMessage <;> simp [mergeOutcome, hm]

theorem resolveMsg_contains (s : String) :
    ∃ pre suf,
      ("Could not resolve ") ++ colorsRed s ++ (" to a commit.") =
        pre ++ (s ++ suf) := by
  refine ⟨("Could not resolve ") ++ ("\x1b[31m"),
    ("\x1b[39m") ++ (" to a commit."), ?_⟩
  rw [colorsRed]
  rw [strAppendAssoc, strAppendAssoc, strAppendAssoc, strAppendAssoc]

/-! ## Claims -/

/-- C1 (amended): in every `merge-bare` run, the post-merge hook is
invoked exactly once iff the run raised no user error (both commitish
arguments resolved and the merge reported no error) — including the
fast-forward-suppressed outcome where no new commit was produced; it is
never invoked on a conflict (error) path. -/
theorem c1_hook_iff_no_user_error (env : MergeBareEnv)
    (args : MergeBareArgs) :
    ((executeableSubcommand env args).userError = none →
      (executeableSubcommand env args).hookCalls = 1)
    ∧ ((executeableSubcommand env args).userError ≠ none →
      (executeableSubcommand env args).hookCalls = 0) := by
  unfold executeableSubcommand
  repeat' split
  all_goals first
    | exact mergeOutcome_hook _
    | simp

/-- C1 witness: a run whose merge returns a commit and no error invokes
the hook once. -/
theorem c1_hook_iff_no_user_error_witness :
    (executeableSubcommand
        ⟨fun _ => some ("c"), fun _ _ _ _ => ⟨some ("m1"), none⟩⟩
        ⟨("msg"), some ("A"), some ("B"), false⟩).userError = none
    ∧ (executeableSubcommand
        ⟨fun _ => some ("c"), fun _ _ _ _ => ⟨some ("m1"), none⟩⟩
        ⟨("msg"), some ("A"), some ("B"), false⟩).hookCalls = 1 :=
  ⟨by decide, (c1_hook_iff_no_user_error _ _).1 (by decide)⟩

/-- C1 counterexample to the claim as stated: a merge run in which
`MergeUtil.merge` returns a null commit with a null error (the
fast-forward-suppressed outcome: no new commit was created, nothing is
printed) still runs the post-merge hook once. -/
theorem c1_counterexample :
    executeableSubcommand ⟨fun _ => some ("c"), fun _ _ _ _ => ⟨none, none⟩⟩
        ⟨("msg"), some ("A"), some ("B"), false⟩ =
      ⟨none, [], 1, 1⟩ := by decide

/-- C3: with `ignoreIndex` true, `getRepoStatus` returns empty `staged`
and the workdir-vs-reference-tree comparison as `workdir`; with
`ignoreIndex` false, it returns the workdir-vs-index comparison as
`workdir` and the index-vs-reference-tree comparison as `staged`. -/
theorem c3_getRepoStatus_branches (env : DiffEnv) (tree : Option GitTree)
    (paths : List String) (allUntracked : Bool) :
    getRepoStatus env tree paths true allUntracked =
      { staged := []
        workdir :=
          readDiff (env.treeToWorkdir tree
            (mkStatusOptions paths allUntracked)) }
    ∧ getRepoStatus env tree paths false allUntracked =
      { staged :=
          readDiff (env.treeToIndex tree
            (mkStatusOptions paths allUntracked))
        workdir :=
          readDiff (env.indexToWorkdir
            (mkStatusOptions paths allUntracked)) } :=
  ⟨rfl, rfl⟩

/-- C5 (amended): `getDiffWithOptions` compares the two trees when both
resolved, compares tree-1 to workdir-plus-index when only tree-1
resolved, and otherwise — including the case where tree-2 alone
resolved — compares the index to the working directory. -/
theorem c5_getDiffWithOptions_cases (o : Opts) :
    (o.t1 = none → getDiffWithOptions o = DiffCall.indexToWorkdir)
    ∧ (∀ a, o.t1 = some a → o.t2 = none →
        getDiffWithOptions o = DiffCall.treeToWorkdirWithIndex a)
    ∧ (∀ a b, o.t1 = some a → o.t2 = some b →
        getDiffWithOptions o = DiffCall.treeToTree a b) := by
  refine ⟨?_, ?_, ?_⟩
  · intro h1
    simp [getDiffWithOptions, h1]
  · intro a h1 h2
    simp [getDiffWithOptions, h1, h2]
  · intro a b h1 h2
    simp [getDiffWithOptions, h1, h2]

/-- C5 witness: both trees resolved gives a tree-to-tree diff. -/
theorem c5_getDiffWithOptions_cases_witness :
    getDiffWithOptions
      { treeish1 := some ("A"), treeish2 := some ("B"), t1 := some [],
        t2 := some [], argOpts := [], argPaths := [] } =
      DiffCall.treeToTree [] [] :=
  (c5_getDiffWithOptions_cases _).2.2 [] [] rfl rfl

/-- C5 counterexample to the claim as stated: in a record where exactly
one tree target resolved — `t2`, because `t1`'s name did not revparse —
the diff compares the index against the working directory instead of
comparing the resolved tree against the working directory together with
the index. -/
theorem c5_counterexample :
    getDiffWithOptions
      { treeish1 := some ("A"), treeish2 := some ("B"), t1 := none,
        t2 := some [], argOpts := [], argPaths := [] } =
      DiffCall.indexToWorkdir := by decide

/-- C6: when `ourCommit` does not resolve — or it resolves and
`theirCommit` does not — `merge-bare` stops with the user error
`Could not resolve <name> to a commit.` (the name wrapped in red),
containing the offending argument literally; the merge is never invoked
and no hook runs. -/
theorem c6_unresolvable_commitish (env : MergeBareEnv)
    (args : MergeBareArgs) (o t : String) (ho : args.ourCommit = some o)
    (ht : args.theirCommit = some t) :
    (env.resolveCommitish o = none →
      executeableSubcommand env args =
        ⟨some (("Could not resolve ") ++ colorsRed o ++ (" to a commit.")),
         [], 0, 0⟩
      ∧ ∃ pre suf,
          ("Could not resolve ") ++ colorsRed o ++ (" to a commit.") =
            pre ++ (o ++ suf))
    ∧ (∀ c, env.resolveCommitish o = some c →
        env.resolveCommitish t = none →
      executeableSubcommand env args =
        ⟨some (("Could not resolve ") ++ colorsRed t ++ (" to a commit.")),
         [], 0, 0⟩
      ∧ ∃ pre suf,
          ("Could not resolve ") ++ colorsRed t ++ (" to a commit.") =
            pre ++ (t ++ suf)) := by
  constructor
  · intro hro
    exact ⟨by simp [executeableSubcommand, ho, ht, hro],
           resolveMsg_contains o⟩
  · intro c hro hrt
    exact ⟨by simp [executeableSubcommand, ho, ht, hro, hrt],
           resolveMsg_contains t⟩

/-- C6 witness: an unresolvable `ourCommit` argument produces the exact
user error, invoking neither the merge nor the hook. -/
theorem c6_unresolvable_commitish_witness :
    executeableSubcommand ⟨fun _ => none, fun _ _ _ _ => ⟨none, none⟩⟩
        ⟨("msg"), some ("badref"), some ("B"), false⟩ =
      ⟨some (("Could not resolve ") ++ colorsRed ("badref") ++
             (" to a commit.")), [], 0, 0⟩
    ∧ ∃ pre suf,
        ("Could not resolve ") ++ colorsRed ("badref") ++
            (" to a commit.") =
          pre ++ (("badref") ++ suf) :=
  (c6_unresolvable_commitish _ _ ("badref") ("B") rfl rfl).1 rfl

/-- C10: a delta with status `UNTRACKED` (outside the submodule-config
path and not a submodule pointer) is reported by `readDiff` under its new
path with `FILESTATUS.ADDED` — `convertDeltaFlag` maps `UNTRACKED` to
`ADDED`, so untracked files surface as additions. -/
theorem c10_untracked_reported_added (ds : List DiffDelta) (d : DiffDelta)
    (hmem : d ∈ ds) (hst : d.status = DELTA.UNTRACKED)
    (hpath : d.newFile.path ≠ modulesFileName)
    (hmode : d.newFile.mode ≠ FILEMODE.COMMIT) :
    convertDeltaFlag DELTA.UNTRACKED = some FILESTATUS.ADDED
    ∧ (d.newFile.path, FILESTATUS.ADDED) ∈ readDiff ds := by
  refine ⟨rfl, ?_⟩
  rw [readDiff, List.mem_filterMap]
  refine ⟨d, hmem, ?_⟩
  simp only [hst, convertDeltaFlag, reduceCtorEq, reduceIte]
  rw [if_pos ⟨fun hh => hpath hh.symm, fun hh => hmode hh.symm⟩]

/-- C10 witness: one untracked delta on `n.txt` appears as
`(n.txt, ADDED)`. -/
theorem c10_untracked_reported_added_witness :
    mkDelta DELTA.UNTRACKED ("n.txt") ∈ [mkDelta DELTA.UNTRACKED ("n.txt")]
    ∧ (((mkDelta DELTA.UNTRACKED ("n.txt")).newFile.path,
        FILESTATUS.ADDED) ∈ readDiff [mkDelta DELTA.UNTRACKED ("n.txt")]) :=
  ⟨by decide,
   (c10_untracked_reported_added _ _ (by decide) rfl (by decide)
     (by decide)).2⟩

theorem readDiff_conflicted_path {ds : List DiffDelta} {p : String}
    (h : ∀ d ∈ ds, (d.oldFile.path = p ∨ d.newFile.path = p) →
      d.status = DELTA.CONFLICTED) :
    hasKey (readDiff ds) p = false := by
  by_contra hb
  rw [Bool.not_eq_false] at hb
  obtain ⟨-, d, hd, hnc, hpath, -⟩ := readDiff_key_src hb
  apply hnc
  apply h d hd
  rw [deltaKeyFile] at hpath
  split at hpath
  · exact Or.inl hpath
  · exact Or.inr hpath

/-- A meta-repo-like environment whose tree-to-workdir diff reports one
modified ordinary file. -/
def oneModifiedEnv : DiffEnv :=
  { treeToWorkdir := fun _ _ => [mkDelta DELTA.MODIFIED ("a.txt")]
    indexToWorkdir := fun _ => []
    treeToIndex := fun _ _ => [] }

/-- An environment whose workdir-facing diffs report one conflicted
path. -/
def oneConflictEnv : DiffEnv :=
  { treeToWorkdir := fun _ _ => [mkDelta DELTA.CONFLICTED ("c.txt")]
    indexToWorkdir := fun _ => [mkDelta DELTA.CONFLICTED ("c.txt")]
    treeToIndex := fun _ _ => [] }

/-- C4: any key of the `staged` or `workdir` mapping produced by
`getRepoStatus` is distinct from the submodule-config path and is
witnessed by a delta of the underlying diff whose keyed file is not a
submodule pointer (`COMMIT` mode). -/
theorem c4_no_submodule_keys (env : DiffEnv) (tree : Option GitTree)
    (paths : List String) (ignoreIndex allUntracked : Bool) (p : String)
    (h : hasKey
          (getRepoStatus env tree paths ignoreIndex allUntracked).staged
          p = true
       ∨ hasKey
          (getRepoStatus env tree paths ignoreIndex allUntracked).workdir
          p = true) :
    p ≠ modulesFileName ∧
      ∃ ds,
        (ds = env.treeToWorkdir tree (mkStatusOptions paths allUntracked)
          ∨ ds = env.indexToWorkdir (mkStatusOptions paths allUntracked)
          ∨ ds = env.treeToIndex tree (mkStatusOptions paths allUntracked))
        ∧ ∃ d ∈ ds, d.status ≠ DELTA.CONFLICTED ∧
            (deltaKeyFile d).path = p ∧
            (deltaKeyFile d).mode ≠ FILEMODE.COMMIT := by
  cases ignoreIndex
  · simp only [getRepoStatus, Bool.false_eq_true, if_false] at h
    rcases h with h | h
    · obtain ⟨hp, d, hd, hc⟩ := readDiff_key_src h
      exact ⟨hp, env.treeToIndex tree _, Or.inr (Or.inr rfl), d, hd, hc⟩
    · obtain ⟨hp, d, hd, hc⟩ := readDiff_key_src h
      exact ⟨hp, env.indexToWorkdir _, Or.inr (Or.inl rfl), d, hd, hc⟩
  · simp only [getRepoStatus, if_true] at h
    rcases h with h | h
    · exact absurd h (by simp [hasKey])
    · obtain ⟨hp, d, hd, hc⟩ := readDiff_key_src h
      exact ⟨hp, env.treeToWorkdir tree _, Or.inl rfl, d, hd, hc⟩

/-- C4 witness: with one modified ordinary file, the key `a.txt` is
present and is witnessed by a non-submodule delta. -/
theorem c4_no_submodule_keys_witness :
    (hasKey (getRepoStatus oneModifiedEnv none [] true false).staged
        ("a.txt") = true
      ∨ hasKey (getRepoStatus oneModifiedEnv none [] true false).workdir
        ("a.txt") = true)
    ∧ (("a.txt") ≠ modulesFileName ∧
      ∃ ds,
        (ds = oneModifiedEnv.treeToWorkdir none (mkStatusOptions [] false)
          ∨ ds = oneModifiedEnv.indexToWorkdir (mkStatusOptions [] false)
          ∨ ds = oneModifiedEnv.treeToIndex none (mkStatusOptions [] false))
        ∧ ∃ d ∈ ds, d.status ≠ DELTA.CONFLICTED ∧
            (deltaKeyFile d).path = ("a.txt") ∧
            (deltaKeyFile d).mode ≠ FILEMODE.COMMIT) :=
  ⟨by decide,
   c4_no_submodule_keys oneModifiedEnv none [] true false ("a.txt")
     (by decide)⟩

/-- C7: a path all of whose deltas are `CONFLICTED` in every diff the
status computation may read is a key of neither `staged` nor `workdir`,
whatever `ignoreIndex` and `allUntracked` are. -/
theorem c7_conflicted_never_keyed (env : DiffEnv) (tree : Option GitTree)
    (paths : List String) (ignoreIndex allUntracked : Bool) (p : String)
    (h1 : ∀ d ∈ env.treeToWorkdir tree (mkStatusOptions paths allUntracked),
      (d.oldFile.path = p ∨ d.newFile.path = p) →
        d.status = DELTA.CONFLICTED)
    (h2 : ∀ d ∈ env.indexToWorkdir (mkStatusOptions paths allUntracked),
      (d.oldFile.path = p ∨ d.newFile.path = p) →
        d.status = DELTA.CONFLICTED)
    (h3 : ∀ d ∈ env.treeToIndex tree (mkStatusOptions paths allUntracked),
      (d.oldFile.path = p ∨ d.newFile.path = p) →
        d.status = DELTA.CONFLICTED) :
    hasKey (getRepoStatus env tree paths ignoreIndex allUntracked).staged
        p = false
    ∧ hasKey (getRepoStatus env tree paths ignoreIndex allUntracked).workdir
        p = false := by
  cases ignoreIndex
  · exact ⟨readDiff_conflicted_path h3, readDiff_conflicted_path h2⟩
  · exact ⟨rfl, readDiff_conflicted_path h1⟩

/-- C7 witness: a conflicted path `c.txt` is keyed in neither mapping. -/
theorem c7_conflicted_never_keyed_witness :
    hasKey (getRepoStatus oneConflictEnv none [] false false).staged
        ("c.txt") = false
    ∧ hasKey (getRepoStatus oneConflictEnv none [] false false).workdir
        ("c.txt") = false :=
  c7_conflicted_never_keyed _ _ _ _ _ _ (by decide) (by decide) (by decide)

/-- C8: against a repository whose index and working directory both hold
exactly the reference tree `T` (no duplicate paths), `getRepoStatus` with
empty paths, `ignoreIndex` false and `allUntracked` false returns empty
`staged` and empty `workdir`. -/
theorem c8_status_tree_vs_itself (T : GitTree)
    (h : (T.map Prod.fst).Nodup) :
    getRepoStatus (stateDiffEnv T T) (some T) [] false false =
      { staged := [], workdir := [] } := by
  have hd := diffStates_self h
  simp [getRepoStatus, stateDiffEnv, mkStatusOptions, applyPathspec, hd,
    readDiff]

/-- C8 witness: a one-file tree compared against itself yields the empty
status. -/
theorem c8_status_tree_vs_itself_witness :
    (([(("a.txt"), ("hello"))] : GitTree).map Prod.fst).Nodup
    ∧ getRepoStatus
        (stateDiffEnv [(("a.txt"), ("hello"))] [(("a.txt"), ("hello"))])
        (some [(("a.txt"), ("hello"))]) [] false false =
      { staged := [], workdir := [] } :=
  ⟨by decide, c8_status_tree_vs_itself _ (by decide)⟩

/-- C9 counterexample to the claim as stated: two invocations with the
same explicit `args.commits` (`["A"]`), the same repository resolver and
the same repository state, but different ambient `process.argv`, produce
different records — with `-- A` in `argv` the token `A` is classified as
a path filter and no treeish is selected; without `--` it becomes
`treeish1`. -/
theorem c9_counterexample :
    getOptions [("node"), ("git-meta"), ("diff"), ("--"), ("A")] [("A")]
        (fun _ => none)
      ≠ getOptions [("node"), ("git-meta"), ("diff"), ("A")] [("A")]
        (fun _ => none) := by decide

/-- C9 (amended): the record `getOptions` returns is determined by the
explicitly passed `args.commits`, the repository resolver, and the two
slices of the ambient `process.argv` that the function re-derives (the
option words before `--` and the path words after it); any two
invocations whose `argv` yields equal slices produce identical records. -/
theorem c9_getOptions_determined_by_slices
    (argv1 argv2 commits : List String) (rv : String → Option GitTree)
    (hOpts : derivedArgOpts argv1 = derivedArgOpts argv2)
    (hPaths : derivedArgPaths argv1 = derivedArgPaths argv2) :
    getOptions argv1 commits rv = getOptions argv2 commits rv := by
  unfold getOptions
  rw [hOpts, hPaths]

/-- C9 witness: two argvs differing only outside the derived slices give
the same record. -/
theorem c9_getOptions_determined_by_slices_witness :
    derivedArgOpts [("a"), ("diff"), ("x")] =
      derivedArgOpts [("b"), ("diff"), ("x")]
    ∧ derivedArgPaths [("a"), ("diff"), ("x")] =
      derivedArgPaths [("b"), ("diff"), ("x")]
    ∧ getOptions [("a"), ("diff"), ("x")] [("HEAD")] (fun _ => none) =
      getOptions [("b"), ("diff"), ("x")] [("HEAD")] (fun _ => none) :=
  ⟨by decide, by decide,
   c9_getOptions_determined_by_slices _ _ _ _ (by decide) (by decide)⟩

/-- C2 counterexample to the claim as stated: the path filter `x/..foo`
lies inside the submodule directory `x` (it is `x` + `/` + the file name
`..foo`), yet its submodule-relative translation `..foo` starts with
`..`, so it is dropped; and the resulting "skipped" submodule is not
silent: `printDiff` still prints its debug line and spawns the empty
command. -/
theorem c2_counterexample :
    ("x/..foo") = ("x") ++ ("/") ++ ("..foo")
    ∧ subDiffCmdBuilder ("/meta") ("/meta/x")
        { treeish1 := none, treeish2 := none, t1 := none, t2 := none,
          argOpts := [], argPaths := [("x/..foo")] } = ("")
    ∧ printDiff ("/meta") ("/meta/x")
        { treeish1 := none, treeish2 := none, t1 := none, t2 := none,
          argOpts := [], argPaths := [("x/..foo")] } =
      { logs := [("qqqq execStr = \x27\x27")], spawned := [("")] } := by
  decide

/-- C2 (amended): with a non-empty path-filter set, each filter whose
submodule-relative translation starts with `..` is dropped — every filter
outside the submodule directory translates that way, but so do paths
inside it whose first remaining segment begins with `..`; a filter inside
the submodule directory translates to its submodule-relative remainder;
if every filter is dropped the built command is empty, so no submodule
git-diff command is constructed, but `printDiff` still logs its debug
line and spawns the empty command; otherwise the built command is the
`git -C` invocation over the kept translated filters. -/
theorem c2_subdiff_path_filters (metaDir subDir : String) (o : Opts)
    (hne : o.argPaths ≠ []) :
    (∀ p, strStartsWith (pathRelative (pathRelative metaDir subDir) p)
        ("..") = true →
      subRelativePath (pathRelative metaDir subDir) p = none)
    ∧ (∀ p, (splitPath (pathRelative metaDir subDir)).isPrefixOf
          (splitPath p) = false →
      strStartsWith (pathRelative (pathRelative metaDir subDir) p)
        ("..") = true)
    ∧ (∀ rest, pathRelative (pathRelative metaDir subDir)
          ((pathRelative metaDir subDir) ++ ("/") ++ rest) =
        joinSegs (splitPath rest))
    ∧ (o.argPaths.filterMap
          (subRelativePath (pathRelative metaDir subDir)) = [] →
        subDiffCmdBuilder metaDir subDir o = ("")
        ∧ printDiff metaDir subDir o =
            { logs := [("qqqq execStr = \x27\x27")], spawned := [("")] })
    ∧ (o.argPaths.filterMap
          (subRelativePath (pathRelative metaDir subDir)) ≠ [] →
        subDiffCmdBuilder metaDir subDir o =
          ("git -C ") ++ (pathRelative metaDir subDir) ++ (" diff ") ++
            joinSp o.argOpts ++ (" ") ++ ("") ++ (" -- ") ++
            joinSp (o.argPaths.filterMap
              (subRelativePath (pathRelative metaDir subDir)))) := by
  have hlen : 0 < o.argPaths.length := List.length_pos.mpr hne
  refine ⟨?_, ?_, ?_, ?_, ?_⟩
  · intro p hp
    simp [subRelativePath, hp]
  · intro p hp
    obtain ⟨rest, hrest⟩ := relSegs_not_under _ _ hp
    rw [pathRelative, hrest]
    exact strStartsWith_joinSegs_head _ rest
  · intro rest
    rw [pathRelative, splitPath_append_slash, relSegs_append]
  · intro hkept
    have hb : subDiffCmdBuilder metaDir subDir o = ("") := by
      simp [subDiffCmdBuilder, hkept, hlen]
    refine ⟨hb, ?_⟩
    rw [printDiff, hb]
    decide
  · intro hkept
    have hlz : ¬(o.argPaths.filterMap
        (subRelativePath (pathRelative metaDir subDir))).length = 0 := by
      simpa [List.length_eq_zero] using hkept
    simp [subDiffCmdBuilder, hlen, hlz]

/-- C2 witness: a filter inside the submodule is kept, translated, and
spliced into the built `git -C` command. -/
theorem c2_subdiff_path_filters_witness :
    ([("x/a.txt")] : List String) ≠ []
    ∧ subDiffCmdBuilder ("/meta") ("/meta/x")
        { treeish1 := none, treeish2 := none, t1 := none, t2 := none,
          argOpts := [], argPaths := [("x/a.txt")] } =
      ("git -C ") ++ (pathRelative ("/meta") ("/meta/x")) ++ (" diff ") ++
        joinSp [] ++ (" ") ++ ("") ++ (" -- ") ++
        joinSp ([("x/a.txt")].filterMap
          (subRelativePath (pathRelative ("/meta") ("/meta/x")))) :=
  ⟨by decide,
   (c2_subdiff_path_filters ("/meta") ("/meta/x")
      { treeish1 := none, treeish2 := none, t1 := none, t2 := none,
        argOpts := [], argPaths := [("x/a.txt")] }
      (by decide)).2.2.2.2 (by decide)⟩

end GitMeta
